import Mathlib

/-!
Verification of the Cosmic-Pulse authoritative game server (`server.ts`).

The server state (players, force fields, territories, match metadata) and
every operation the claims touch are shallowly embedded below: JavaScript
`Map`s become insertion-ordered association lists, JS numbers become `ℚ`,
nondeterministic inputs (`Date.now()`, `uuidv4()`, `Math.random()`) become
explicit parameters.  Each definition is a direct translation of the
corresponding source function.
-/

namespace CosmicPulse

/-- `Vector3` from `server.ts`. -/
structure Vector3 where
  x : ℚ
  y : ℚ
  z : ℚ
deriving DecidableEq, Repr

/-- `Player` from `server.ts`. -/
structure Player where
  id : String
  color : String
  position : Option Vector3
  lastUpdate : ℚ
deriving DecidableEq, Repr

/-- Force-field kind: `'attractor' | 'repulsor'`. -/
inductive FieldKind where
  | attractor
  | repulsor
deriving DecidableEq, Repr

/-- `ForceField` from `server.ts`. -/
structure ForceField where
  id : String
  position : Vector3
  type : FieldKind
  ownerId : String
  createdAt : ℚ
  color : String
deriving DecidableEq, Repr

/-- `Territory` from `server.ts` (`points` is documented there as `// 0 to 100`). -/
structure Territory where
  id : String
  position : Vector3
  radius : ℚ
  points : ℚ
  controllingColor : Option String
deriving DecidableEq, Repr

/-- `GamePhase` from `server.ts`. -/
inductive GamePhase where
  | lobby
  | countdown
  | in_match
  | post_match
deriving DecidableEq, Repr

/-- `Scoreboard` from `server.ts`; the two `Record`s become association lists
in key-insertion order. -/
structure Scoreboard where
  players : List (String × Nat)
  colors : List (String × Nat)
deriving DecidableEq, Repr

/-- `MatchMetadata` from `server.ts`. -/
structure MatchMetadata where
  phase : GamePhase
  roundEndsAt : Option ℚ
  winningPlayerId : Option String
  winningColor : Option String
  scoreboard : Scoreboard
deriving DecidableEq, Repr

/-- The whole mutable server state: the module-level `players`, `forceFields`,
`clients`, `territories` maps (insertion-ordered lists) plus `matchMetadata`.
`clients` keeps only the connection ids (the sockets carry no game data). -/
structure ServerState where
  players : List Player
  forceFields : List ForceField
  clients : List String
  territories : List Territory
  matchMetadata : MatchMetadata
deriving DecidableEq, Repr

/-- The initial `territories` map from `server.ts`. -/
def initialTerritories : List Territory :=
  [ { id := "t1", position := { x := -8, y := 4, z := 0 }, radius := 5/2, points := 0, controllingColor := none },
    { id := "t2", position := { x := 8, y := 4, z := 0 }, radius := 5/2, points := 0, controllingColor := none },
    { id := "t3", position := { x := 0, y := -6, z := 0 }, radius := 5/2, points := 0, controllingColor := none } ]

/-- The `COLORS` palette from `server.ts`. -/
def COLORS : List String :=
  ["#FF3366", "#33CCFF", "#FF9933", "#33FF99", "#CC33FF", "#FFFF33", "#FF3333", "#3333FF"]

def COUNTDOWN_DURATION_MS : ℚ := 5000

def MATCH_DURATION_MS : ℚ := 45000

def POST_MATCH_DURATION_MS : ℚ := 5000

/-- Initial `matchMetadata` from `server.ts`. -/
def initialMatchMetadata : MatchMetadata :=
  { phase := .lobby, roundEndsAt := none, winningPlayerId := none, winningColor := none,
    scoreboard := { players := [], colors := [] } }

/-- The state at process start. -/
def initialState : ServerState :=
  { players := [], forceFields := [], clients := [], territories := initialTerritories,
    matchMetadata := initialMatchMetadata }

/-- `getNextPlayerColor` from `server.ts`; `rnd` stands for the
`Math.floor(Math.random() * COLORS.length)` sample. -/
def getNextPlayerColor (ps : List Player) (rnd : Nat) : String :=
  match COLORS.find? (fun c => !(ps.any (fun p => p.color == c))) with
  | some c => c
  | none => COLORS.getD (rnd % COLORS.length) ""

/-- `resetRoundState` from `server.ts`. -/
def resetRoundState (s : ServerState) : ServerState :=
  { s with
    territories := s.territories.map (fun t => { t with points := 0, controllingColor := none }),
    forceFields := [] }

/-- `startCountdown` from `server.ts`. -/
def startCountdown (now : ℚ) (s : ServerState) : ServerState :=
  { s with matchMetadata :=
    { s.matchMetadata with
      phase := .countdown,
      roundEndsAt := some (now + COUNTDOWN_DURATION_MS),
      winningPlayerId := none,
      winningColor := none } }

/-- `startMatch` from `server.ts`. -/
def startMatch (now : ℚ) (s : ServerState) : ServerState :=
  { s with matchMetadata :=
    { s.matchMetadata with
      phase := .in_match,
      roundEndsAt := some (now + MATCH_DURATION_MS) } }

/-- `getWinningPlayerByColor` from `server.ts`: first player (in map insertion
order) with the given color. -/
def getWinningPlayerByColor (ps : List Player) (color : String) : Option Player :=
  ps.find? (fun p => p.color == color)

/-- `m[k] || 0` on a JS `Record<string, number>` modelled as an association
list. -/
def lookupOr0 (m : List (String × ℚ)) (k : String) : ℚ :=
  match m.find? (fun e => e.1 == k) with
  | some e => e.2
  | none => 0

/-- `m[k] = (m[k] || 0) + v` on a JS `Record<string, number>`: update the
existing entry in place, or append a fresh key at the end (JS objects keep
string keys in insertion order). -/
def recBump (m : List (String × ℚ)) (k : String) (v : ℚ) : List (String × ℚ) :=
  match m with
  | [] => [(k, v)]
  | e :: rest => if e.1 == k then (e.1, e.2 + v) :: rest else e :: recBump rest k v

/-- One iteration of the aggregation loop of `endMatch` over a territory:
`if (!territory.controllingColor) continue` skips both `null` and the falsy
empty string, otherwise both records are bumped. -/
def tallyStep (acc : List (String × ℚ) × List (String × ℚ)) (t : Territory) :
    List (String × ℚ) × List (String × ℚ) :=
  match t.controllingColor with
  | none => acc
  | some color =>
      if color == "" then acc
      else (recBump acc.1 color 1, recBump acc.2 color t.points)

/-- The aggregation loop of `endMatch`: builds `territoryCounts` and
`territoryPoints`. -/
def tally (ts : List Territory) : List (String × ℚ) × List (String × ℚ) :=
  ts.foldl tallyStep ([], [])

/-- The winner-selection loop of `endMatch` over `Object.keys(territoryCounts)`:
`best` is `(winningColor, bestTerritoryCount, bestTotalPoints)`. -/
def selLoop (f : String → ℚ × ℚ) (best : Option String × ℚ × ℚ) :
    List String → Option String × ℚ × ℚ
  | [] => best
  | c :: rest =>
      let v := f c
      if v.1 > best.2.1 ∨ (v.1 = best.2.1 ∧ v.2 > best.2.2) then
        selLoop f (some c, v) rest
      else
        selLoop f best rest

/-- `(m[k] || 0)` on a scoreboard `Record<string, number>` (values are win
counters, so `Nat`). -/
def lookupNat (m : List (String × Nat)) (k : String) : Nat :=
  match m.find? (fun e => e.1 == k) with
  | some e => e.2
  | none => 0

/-- `m[k] = (m[k] || 0) + 1` on a scoreboard record. -/
def bumpNat (m : List (String × Nat)) (k : String) : List (String × Nat) :=
  match m with
  | [] => [(k, 1)]
  | e :: rest => if e.1 == k then (e.1, e.2 + 1) :: rest else e :: bumpNat rest k

/-- The tail of `endMatch` (everything after the winner-selection loop),
taking the selected `winningColor` as an argument.  `winningColor ? ... : null`,
`if (winningColor)` and `winningPlayer?.id || null` are JS truthiness tests,
hence the explicit empty-string guards. -/
def endMatchCore (s : ServerState) (now : ℚ) (winningColor : Option String) :
    ServerState :=
  let winningPlayer : Option Player :=
    match winningColor with
    | some c => if c == "" then none else getWinningPlayerByColor s.players c
    | none => none
  let sb := s.matchMetadata.scoreboard
  let sb1 : Scoreboard :=
    match winningColor with
    | some c => if c == "" then sb else { sb with colors := bumpNat sb.colors c }
    | none => sb
  let sb2 : Scoreboard :=
    match winningPlayer with
    | some p => { sb1 with players := bumpNat sb1.players p.id }
    | none => sb1
  { s with matchMetadata :=
    { phase := .post_match,
      roundEndsAt := some (now + POST_MATCH_DURATION_MS),
      winningPlayerId :=
        match winningPlayer with
        | some p => if p.id == "" then none else some p.id
        | none => none,
      winningColor := winningColor,
      scoreboard := sb2 } }

/-- `endMatch` from `server.ts`: aggregate per color, run the selection loop
over `Object.keys(territoryCounts)`, then apply the winner. -/
def endMatch (now : ℚ) (s : ServerState) : ServerState :=
  let agg := tally s.territories
  endMatchCore s now
    (selLoop (fun c => (lookupOr0 agg.1 c, lookupOr0 agg.2 c))
      (none, -1, -1) (agg.1.map Prod.fst)).1

/-- The JS test `!matchMetadata.roundEndsAt || now < matchMetadata.roundEndsAt`
(`null` and the number `0` are both falsy; `now < null` is `false`). -/
def roundNotDue (now : ℚ) : Option ℚ → Bool
  | none => true
  | some v => v == 0 || now < v

/-- `updateMatchPhase` from `server.ts`. -/
def updateMatchPhase (now : ℚ) (s : ServerState) : ServerState :=
  if s.players.length = 0 then
    { s with matchMetadata :=
      { s.matchMetadata with
        phase := .lobby, roundEndsAt := none,
        winningPlayerId := none, winningColor := none } }
  else if s.matchMetadata.phase = .lobby then
    startCountdown now (resetRoundState s)
  else if roundNotDue now s.matchMetadata.roundEndsAt then
    s
  else if s.matchMetadata.phase = .countdown then
    startMatch now s
  else if s.matchMetadata.phase = .in_match then
    endMatch now s
  else if s.matchMetadata.phase = .post_match then
    startCountdown now (resetRoundState s)
  else
    s

/-- The `hit_territory` branch of the message handler (the CaptureResolver
arithmetic applied to the fetched territory object). -/
def resolveHit (t : Territory) (attackerColor : String) (rawAmount : ℚ) : Territory :=
  let amount := rawAmount * (1/10)
  if t.controllingColor = some attackerColor then
    { t with points := min 100 (t.points + amount) }
  else
    let pts := t.points - amount
    if pts ≤ 0 then
      { t with controllingColor := some attackerColor, points := |pts| }
    else
      { t with points := pts }

/-- The full `hit_territory` message handler: phase gate, territory and player
lookup, then `resolveHit` on the found territory (a JS `Map` mutation of the
fetched object, i.e. an in-place update at that key). -/
def hitTerritory (s : ServerState) (senderId territoryId : String) (amount : ℚ) :
    ServerState :=
  if s.matchMetadata.phase ≠ GamePhase.in_match then s
  else
    match s.territories.find? (fun t => t.id == territoryId),
          s.players.find? (fun p => p.id == senderId) with
    | some _, some p =>
        { s with territories := s.territories.map
                  (fun u => if u.id == territoryId then resolveHit u p.color amount else u) }
    | _, _ => s

/-- Inbound client messages after a successful `JSON.parse`; `other` stands
for any well-formed frame whose `type` matches no handler branch. -/
inductive ClientMsg where
  | cursor (position : Vector3)
  | add_force (position : Vector3) (forceType : FieldKind) (color : String)
  | hit_territory (territoryId : String) (amount : ℚ)
  | other
deriving DecidableEq, Repr

/-- Outbound broadcasts the embedded handlers can emit. -/
inductive OutboundMsg where
  | player_joined (player : Player)
  | player_left (id : String)
  | force_added (force : ForceField)
deriving DecidableEq, Repr

/-- The `ws.on('message')` handler for connection `id`.  Its argument is the
decode result: `none` means `JSON.parse` threw, landing in the `catch` block
(state untouched, error logged — the returned `Bool`).  `newId` is the
`uuidv4()` drawn for a created force field and `now` is `Date.now()`. -/
def handleClientMessage (s : ServerState) (id newId : String) (now : ℚ) :
    Option ClientMsg → ServerState × List OutboundMsg × Bool
  | none => (s, [], true)
  | some (.cursor pos) =>
      ({ s with players := s.players.map
                  (fun p => if p.id == id then { p with position := some pos, lastUpdate := now } else p) },
       [], false)
  | some (.add_force pos forceType color) =>
      let force : ForceField :=
        { id := newId, position := pos, type := forceType, ownerId := id,
          createdAt := now, color := color }
      ({ s with forceFields := s.forceFields ++ [force] },
       [.force_added force], false)
  | some (.hit_territory territoryId amount) =>
      (hitTerritory s id territoryId amount, [], false)
  | some .other => (s, [], false)

/-- The `wss.on('connection')` handler: allocate an id and a color, register
the player and the socket, broadcast `player_joined`. -/
def connectPlayer (s : ServerState) (newId : String) (rnd : Nat) (now : ℚ) :
    ServerState × List OutboundMsg :=
  let color := getNextPlayerColor s.players rnd
  let player : Player := { id := newId, color := color, position := none, lastUpdate := now }
  ({ s with players := s.players ++ [player], clients := s.clients ++ [newId] },
   [.player_joined player])

/-- The `ws.on('close')` handler: remove the player, its socket and every
force field it owns, then broadcast `player_left`. -/
def disconnectPlayer (s : ServerState) (id : String) : ServerState × List OutboundMsg :=
  ({ s with
      players := s.players.filter (fun p => p.id != id),
      clients := s.clients.filter (fun c => c != id),
      forceFields := s.forceFields.filter (fun f => f.ownerId != id) },
   [.player_left id])

/-- The `sync` payload built each tick; `forceFields` is the optional spread
`...(forcesChanged ? { forceFields: ... } : {})`. -/
structure SyncPayload where
  players : List Player
  territories : List Territory
  matchData : MatchMetadata
  forceFields : Option (List ForceField)
deriving DecidableEq, Repr

/-- One iteration of the 50 ms `setInterval` loop: run `updateMatchPhase`,
expire force fields older than 10500 ms (recording whether any were removed),
and build the `sync` payload from the resulting state. -/
def tickStep (now : ℚ) (s : ServerState) : ServerState × SyncPayload :=
  let s1 := updateMatchPhase now s
  let forcesChanged := s1.forceFields.any (fun f => decide (now - f.createdAt > 10500))
  let kept := s1.forceFields.filter (fun f => decide (¬ now - f.createdAt > 10500))
  let s2 := { s1 with forceFields := kept }
  (s2,
   { players := s2.players.filter (fun p => p.position ≠ none),
     territories := s2.territories,
     matchData := s2.matchMetadata,
     forceFields := if forcesChanged then some kept else none })

/-! ### Spec-side definitions for the End-Match claim

The following definitions transcribe the spec's own wording of the End-Match
algorithm ("for every territory with non-null `controllingColor`, accumulate,
per color, a territory count and a points sum; the winning color is the one
with the highest territory count; ties broken by higher accumulated points;
remaining ties resolved by the first color encountered during aggregation"),
to be compared with the `endMatch` translated from the source above. -/

/-- First-occurrence deduplication, keeping encounter order; `seen` is the
set of colors already emitted. -/
def dedupFirstAux (seen : List String) : List String → List String
  | [] => []
  | x :: xs => if x ∈ seen then dedupFirstAux seen xs else x :: dedupFirstAux (x :: seen) xs

/-- The list of colors in first-encounter order. -/
def dedupFirst (l : List String) : List String :=
  dedupFirstAux [] l

/-- Spec wording: the number of territories a color controls. -/
def specColorCount (ts : List Territory) (c : String) : ℚ :=
  ((ts.filter (fun t => t.controllingColor == some c)).length : ℚ)

/-- Spec wording: the accumulated points of the territories a color controls. -/
def specColorPoints (ts : List Territory) (c : String) : ℚ :=
  ((ts.filter (fun t => t.controllingColor == some c)).map Territory.points).sum

/-- Spec wording: the colors encountered during aggregation, in territory
iteration order, each counted once. -/
def specColorOrder (ts : List Territory) : List String :=
  dedupFirst (ts.filterMap Territory.controllingColor)

/-- Spec wording: color `d` places strictly better than color `c` (more
territories, or equally many territories and more accumulated points). -/
def specBeats (ts : List Territory) (d c : String) : Prop :=
  specColorCount ts d > specColorCount ts c ∨
    (specColorCount ts d = specColorCount ts c ∧
      specColorPoints ts d > specColorPoints ts c)

instance (ts : List Territory) (d c : String) : Decidable (specBeats ts d c) := by
  unfold specBeats
  infer_instance

/-- Spec wording of the End-Match winner: the first color, in encounter
order, that no other encountered color beats. -/
def specWinningColor (ts : List Territory) : Option String :=
  (specColorOrder ts).find?
    (fun c => (specColorOrder ts).all (fun d => decide (¬ specBeats ts d c)))

/-- Strict lexicographic order on `(territoryCount, totalPoints)` pairs, the
order implicit in the selection loop's comparison. -/
def lexLt (a b : ℚ × ℚ) : Prop :=
  a.1 < b.1 ∨ (a.1 = b.1 ∧ a.2 < b.2)

instance (a b : ℚ × ℚ) : Decidable (lexLt a b) := by
  unfold lexLt
  infer_instance

/-! ### Event steps and reachability

Events the running server processes: a WebSocket connection (`uuidv4` gives a
fresh id), a message from a live connection, a disconnect, and a timer tick. -/

/-- One serialized event of the server. -/
inductive Step : ServerState → ServerState → Prop where
  | connect (s : ServerState) (newId : String) (rnd : Nat) (now : ℚ)
      (h : newId ∉ s.players.map Player.id) :
      Step s (connectPlayer s newId rnd now).1
  | message (s : ServerState) (id newId : String) (now : ℚ) (m : Option ClientMsg)
      (h : id ∈ s.clients) :
      Step s (handleClientMessage s id newId now m).1
  | disconnect (s : ServerState) (id : String) :
      Step s (disconnectPlayer s id).1
  | tick (s : ServerState) (now : ℚ) :
      Step s (tickStep now s).1

/-- States reachable from process start through serialized events. -/
inductive Reachable : ServerState → Prop where
  | init : Reachable initialState
  | step {s s' : ServerState} : Reachable s → Step s s' → Reachable s'

/-- The ownership invariant: the client registry mirrors the player registry,
and every force field's owner is a registered player. -/
def OwnInv (s : ServerState) : Prop :=
  s.clients = s.players.map Player.id ∧
  ∀ f ∈ s.forceFields, f.ownerId ∈ s.players.map Player.id

/-! ### Concrete states used by examples and witnesses -/

/-- A connected player holding the first palette color. -/
def examplePlayer : Player :=
  { id := "p1", color := "#FF3366", position := none, lastUpdate := 0 }

/-- A state during `in_match` with one connected player and the initial
(uncaptured) territories. -/
def sInMatch : ServerState :=
  { players := [examplePlayer], forceFields := [], clients := ["p1"],
    territories := initialTerritories,
    matchMetadata := { initialMatchMetadata with phase := .in_match, roundEndsAt := some 1000000 } }

/-- A territory owned by color `A` holding 5 points (spec's capture-flip
example). -/
def exTerrA5 : Territory :=
  { id := "t1", position := { x := 0, y := 0, z := 0 }, radius := 5/2,
    points := 5, controllingColor := some "A" }

/-- End-of-round state in which colors `A` and `B` each control exactly one
territory with equal points; `A`'s territory was registered first. -/
def sTie : ServerState :=
  { players := [], forceFields := [], clients := [],
    territories :=
      [ { id := "t1", position := { x := 0, y := 0, z := 0 }, radius := 5/2,
          points := 30, controllingColor := some "A" },
        { id := "t2", position := { x := 0, y := 0, z := 0 }, radius := 5/2,
          points := 30, controllingColor := some "B" } ],
    matchMetadata := { initialMatchMetadata with phase := .in_match, roundEndsAt := some 1 } }

/-- A force field created at time 0 by the connected player. -/
def fExpire : ForceField :=
  { id := "f1", position := { x := 0, y := 0, z := 0 }, type := .attractor,
    ownerId := "p1", createdAt := 0, color := "#FF3366" }

/-- `sInMatch` carrying `fExpire`. -/
def sFields : ServerState :=
  { sInMatch with forceFields := [fExpire] }

/-- The state after the first connection. -/
def sW1 : ServerState :=
  (connectPlayer initialState "p1" 0 0).1

/-- `sW1` after that player placed a force field (payload color differs from
the player's assigned color). -/
def sW2 : ServerState :=
  (handleClientMessage sW1 "p1" "f1" 5
    (some (.add_force { x := 0, y := 0, z := 0 } .attractor "#33CCFF"))).1

/-- The force field created inside `sW2`. -/
def fW : ForceField :=
  { id := "f1", position := { x := 0, y := 0, z := 0 }, type := .attractor,
    ownerId := "p1", createdAt := 5, color := "#33CCFF" }

/-- The first territory of the initial map. -/
def tInit1 : Territory :=
  { id := "t1", position := { x := -8, y := 4, z := 0 }, radius := 5/2,
    points := 0, controllingColor := none }

/-! ## Theorems -/

/-- **C8**: a message whose structural encoding is invalid (`JSON.parse`
threw, decode result `none`) is caught: the state is returned unchanged (so
players, force fields, territories, match metadata and the client registry —
hence the connection — are all untouched), nothing is sent, and the error is
logged (the `true` flag). -/
theorem c8_malformed_message_noop (s : ServerState) (id newId : String) (now : ℚ) :
    handleClientMessage s id newId now none = (s, [], true) := rfl

/-- **C5**: a `hit_territory` message arriving while the phase is not
`in_match` leaves the whole state unchanged and sends no reply and no error
message. -/
theorem c5_hit_territory_phase_gate (s : ServerState) (id newId : String) (now : ℚ)
    (tid : String) (amt : ℚ) (h : s.matchMetadata.phase ≠ GamePhase.in_match) :
    handleClientMessage s id newId now (some (.hit_territory tid amt)) = (s, [], false) := by
  simp only [handleClientMessage, hitTerritory, if_pos h]

theorem c5_hit_territory_phase_gate_witness :
    handleClientMessage initialState "p1" "n1" 0 (some (.hit_territory "t1" 50)) =
      (initialState, [], false) :=
  c5_hit_territory_phase_gate initialState "p1" "n1" 0 "t1" 50 (by decide)

/-- **C10**: an `add_force` message from a connected player creates a force
field unconditionally — for every state, with `color` and `type` copied
verbatim from the payload (never checked against the sender's assigned
color), and with no per-player cap, energy cost or cooldown gating. -/
theorem c10_add_force_unconditional (s : ServerState) (id newId : String) (now : ℚ)
    (pos : Vector3) (forceType : FieldKind) (color : String) :
    handleClientMessage s id newId now (some (.add_force pos forceType color)) =
      ({ s with forceFields := s.forceFields ++
          [{ id := newId, position := pos, type := forceType, ownerId := id,
             createdAt := now, color := color }] },
       [.force_added { id := newId, position := pos, type := forceType, ownerId := id,
                       createdAt := now, color := color }],
       false) := rfl

/-- **C7**: whenever the tick's phase evaluation runs with zero connected
players, the result — regardless of the prior phase — has `phase = lobby`,
`roundEndsAt = null`, cleared winners, an untouched scoreboard, and no
further transition is applied (the returned state is exactly this one). -/
theorem c7_zero_players_forces_lobby (s : ServerState) (now : ℚ) (h : s.players = []) :
    updateMatchPhase now s =
      { s with matchMetadata :=
        { phase := .lobby, roundEndsAt := none, winningPlayerId := none,
          winningColor := none, scoreboard := s.matchMetadata.scoreboard } } := by
  unfold updateMatchPhase
  rw [if_pos (by simp [h])]

theorem c7_zero_players_forces_lobby_witness :
    updateMatchPhase 99 sTie =
      { sTie with matchMetadata :=
        { phase := .lobby, roundEndsAt := none, winningPlayerId := none,
          winningColor := none, scoreboard := sTie.matchMetadata.scoreboard } } :=
  c7_zero_players_forces_lobby sTie 99 rfl

/-- **C2**: while `phase == in_match`, a `hit_territory` for an existing
territory from a connected player scales the raw amount by `0.1`; on the
territory with that id, if `controllingColor` equals the attacker's color the
points saturate-add to at most 100 with ownership unchanged, otherwise the
points drop by the amount and, when the result is `≤ 0`, ownership flips to
the attacker with the absolute value as the new points.  Nothing is sent
back.  The spec's two worked examples (capture flip `5 - 10 ↦ |−5| = 5` under
new ownership, and saturating reinforcement `90 + 20 ↦ 100`) are instances. -/
theorem c2_capture_resolver_correct :
    (∀ (s : ServerState) (id newId : String) (now : ℚ) (tid : String) (raw : ℚ)
        (t : Territory) (p : Player),
        s.matchMetadata.phase = GamePhase.in_match →
        s.territories.find? (fun u => u.id == tid) = some t →
        s.players.find? (fun q => q.id == id) = some p →
        (handleClientMessage s id newId now (some (.hit_territory tid raw))).1 =
          { s with territories := s.territories.map (fun u =>
              if u.id == tid then
                if u.controllingColor = some p.color then
                  { u with points := min 100 (u.points + raw * (1/10)) }
                else if u.points - raw * (1/10) ≤ 0 then
                  { u with controllingColor := some p.color,
                           points := |u.points - raw * (1/10)| }
                else
                  { u with points := u.points - raw * (1/10) }
              else u) } ∧
        (handleClientMessage s id newId now (some (.hit_territory tid raw))).2 =
          ([], false)) ∧
    resolveHit exTerrA5 "B" 100 = { exTerrA5 with controllingColor := some "B", points := 5 } ∧
    resolveHit { exTerrA5 with points := 90 } "A" 200 = { exTerrA5 with points := 100 } := by
  refine ⟨?_, ?_, ?_⟩
  · intro s id newId now tid raw t p hphase hft hfp
    refine ⟨?_, rfl⟩
    show hitTerritory s id tid raw = _
    unfold hitTerritory
    rw [if_neg (by simp [hphase]), hft, hfp]
    rfl
  · norm_num +decide [resolveHit, exTerrA5]
  · norm_num +decide [resolveHit, exTerrA5]

theorem c2_capture_resolver_correct_witness :
    (handleClientMessage sInMatch "p1" "n1" 0 (some (.hit_territory "t1" 100))).1 =
      { sInMatch with territories := sInMatch.territories.map (fun u =>
          if u.id == "t1" then
            if u.controllingColor = some examplePlayer.color then
              { u with points := min 100 (u.points + 100 * (1/10)) }
            else if u.points - 100 * (1/10) ≤ 0 then
              { u with controllingColor := some examplePlayer.color,
                       points := |u.points - 100 * (1/10)| }
            else
              { u with points := u.points - 100 * (1/10) }
          else u) } ∧
    (handleClientMessage sInMatch "p1" "n1" 0 (some (.hit_territory "t1" 100))).2 =
      ([], false) :=
  c2_capture_resolver_correct.1 sInMatch "p1" "n1" 0 "t1" 100 tInit1 examplePlayer
    rfl rfl rfl

/-- **C1** (violated by the code): during `in_match`, a single `hit_territory`
with a positive raw count can drive a territory's points far above 100.  From
the initial (uncaptured, `points = 0`) territories, a hit of raw amount 10000
(scaled to 1000) flips ownership and sets `points = 1000`, outside `[0,100]`:
the flip branch `t.points = Math.abs(t.points)` has no upper clamp, contrary
to the source's own `points: number; // 0 to 100` documentation. -/
theorem c1_hit_territory_breaks_points_bound :
    (0 : ℚ) < 10000 ∧
    sInMatch.matchMetadata.phase = GamePhase.in_match ∧
    (∀ t ∈ sInMatch.territories, 0 ≤ t.points ∧ t.points ≤ 100) ∧
    ((hitTerritory sInMatch "p1" "t1" 10000).territories.find?
        (fun t => t.id == "t1")).map Territory.points = some 1000 ∧
    ¬ ∀ t ∈ (hitTerritory sInMatch "p1" "t1" 10000).territories,
        0 ≤ t.points ∧ t.points ≤ 100 := by
  refine ⟨by norm_num, rfl, ?_, ?_, ?_⟩
  · norm_num +decide [sInMatch, initialTerritories]
  · norm_num +decide [hitTerritory, sInMatch, examplePlayer, initialTerritories,
      initialMatchMetadata, resolveHit]
  · norm_num +decide [hitTerritory, sInMatch, examplePlayer, initialTerritories,
      initialMatchMetadata, resolveHit]

/-- **C4**: on every tick, the expiry step removes a force field exactly when
its age `now - createdAt` exceeds 10500 ms, and the tick's `sync` payload
carries a `forceFields` array iff that step removed at least one field.
Concretely: a field created at `t0 = 0` is still present at `t0 + 10000`
(sync omits `forceFields`), absent at `t0 + 11000` with that tick's sync
including `forceFields`, and the next tick (nothing removed) omits it again. -/
theorem c4_force_field_expiry_and_sync :
    (∀ (s : ServerState) (now : ℚ) (f : ForceField),
        f ∈ (updateMatchPhase now s).forceFields →
        (f ∈ (tickStep now s).1.forceFields ↔ ¬ now - f.createdAt > 10500)) ∧
    (∀ (s : ServerState) (now : ℚ),
        (tickStep now s).2.forceFields ≠ none ↔
          ∃ f ∈ (updateMatchPhase now s).forceFields, now - f.createdAt > 10500) ∧
    (fExpire ∈ (tickStep 10000 sFields).1.forceFields ∧
     (tickStep 10000 sFields).2.forceFields = none ∧
     fExpire ∉ (tickStep 11000 sFields).1.forceFields ∧
     (tickStep 11000 sFields).2.forceFields = some ((tickStep 11000 sFields).1.forceFields) ∧
     (tickStep 11050 (tickStep 11000 sFields).1).2.forceFields = none) := by
  refine ⟨?_, ?_, ?_, ?_, ?_, ?_, ?_⟩
  · intro s now f hf
    show f ∈ (updateMatchPhase now s).forceFields.filter
        (fun g => decide (¬ now - g.createdAt > 10500)) ↔ _
    rw [List.mem_filter]
    simp [hf]
  · intro s now
    have hrfl : (tickStep now s).2.forceFields =
        (if (updateMatchPhase now s).forceFields.any
              (fun f => decide (now - f.createdAt > 10500)) then
          some ((updateMatchPhase now s).forceFields.filter
            (fun f => decide (¬ now - f.createdAt > 10500)))
        else none) := rfl
    rw [hrfl]
    by_cases h : (updateMatchPhase now s).forceFields.any
        (fun f => decide (now - f.createdAt > 10500)) = true
    · rw [if_pos h]
      simp only [List.any_eq_true, decide_eq_true_eq] at h
      simp [h]
    · rw [if_neg h]
      simp only [List.any_eq_true, decide_eq_true_eq] at h
      simp [h]
  · norm_num +decide [tickStep, updateMatchPhase, roundNotDue, sFields, sInMatch,
      examplePlayer, initialMatchMetadata, fExpire, initialTerritories]
  · norm_num +decide [tickStep, updateMatchPhase, roundNotDue, sFields, sInMatch,
      examplePlayer, initialMatchMetadata, fExpire, initialTerritories]
  · norm_num +decide [tickStep, updateMatchPhase, roundNotDue, sFields, sInMatch,
      examplePlayer, initialMatchMetadata, fExpire, initialTerritories]
  · norm_num +decide [tickStep, updateMatchPhase, roundNotDue, sFields, sInMatch,
      examplePlayer, initialMatchMetadata, fExpire, initialTerritories]
  · norm_num +decide [tickStep, updateMatchPhase, roundNotDue, sFields, sInMatch,
      examplePlayer, initialMatchMetadata, fExpire, initialTerritories]

theorem c4_force_field_expiry_and_sync_witness :
    fExpire ∈ (tickStep 10000 sFields).1.forceFields ↔
      ¬ (10000 : ℚ) - fExpire.createdAt > 10500 :=
  c4_force_field_expiry_and_sync.1 sFields 10000 fExpire
    (by norm_num +decide [updateMatchPhase, roundNotDue, sFields, sInMatch,
      examplePlayer, initialMatchMetadata, fExpire, initialTerritories])

/-! ### State-component lemmas for the reachability invariants -/

theorem hitTerritory_components (s : ServerState) (a b : String) (amt : ℚ) :
    (hitTerritory s a b amt).players = s.players ∧
    (hitTerritory s a b amt).forceFields = s.forceFields ∧
    (hitTerritory s a b amt).clients = s.clients ∧
    (hitTerritory s a b amt).matchMetadata = s.matchMetadata := by
  unfold hitTerritory
  split
  · exact ⟨rfl, rfl, rfl, rfl⟩
  · split
    · exact ⟨rfl, rfl, rfl, rfl⟩
    · exact ⟨rfl, rfl, rfl, rfl⟩

theorem handleClientMessage_matchMetadata (s : ServerState) (id newId : String)
    (now : ℚ) (m : Option ClientMsg) :
    (handleClientMessage s id newId now m).1.matchMetadata = s.matchMetadata := by
  match m with
  | none => rfl
  | some (.cursor pos) => rfl
  | some (.add_force pos k c) => rfl
  | some (.hit_territory tid amt) =>
      exact (hitTerritory_components s id tid amt).2.2.2
  | some .other => rfl

theorem updateMatchPhase_players (now : ℚ) (s : ServerState) :
    (updateMatchPhase now s).players = s.players := by
  unfold updateMatchPhase
  repeat' split
  all_goals rfl

theorem updateMatchPhase_clients (now : ℚ) (s : ServerState) :
    (updateMatchPhase now s).clients = s.clients := by
  unfold updateMatchPhase
  repeat' split
  all_goals rfl

theorem updateMatchPhase_forceFields (now : ℚ) (s : ServerState) :
    (updateMatchPhase now s).forceFields = s.forceFields ∨
    (updateMatchPhase now s).forceFields = [] := by
  unfold updateMatchPhase
  repeat' split
  all_goals simp [startCountdown, startMatch, resetRoundState, endMatch, endMatchCore]

theorem updateMatchPhase_MdInv (now : ℚ) (s : ServerState)
    (h : s.matchMetadata.phase = .lobby ↔ s.matchMetadata.roundEndsAt = none) :
    ((updateMatchPhase now s).matchMetadata.phase = .lobby ↔
      (updateMatchPhase now s).matchMetadata.roundEndsAt = none) := by
  unfold updateMatchPhase
  repeat' split
  all_goals
    first
      | exact h
      | simp [startCountdown, startMatch, resetRoundState, endMatch, endMatchCore]

/-- **C6**: in every reachable state, `roundEndsAt` is `null` iff the phase is
`lobby`; the biconditional holds initially and is preserved by every event —
in particular by every phase transition and by the zero-player reset inside
`updateMatchPhase`. -/
theorem c6_roundEndsAt_null_iff_lobby (s : ServerState) (h : Reachable s) :
    s.matchMetadata.phase = GamePhase.lobby ↔ s.matchMetadata.roundEndsAt = none := by
  induction h with
  | init => simp [initialState, initialMatchMetadata]
  | @step s s' hr hstep ih =>
      cases hstep with
      | connect nid rnd now hfresh => exact ih
      | message id nid now m hc =>
          rw [handleClientMessage_matchMetadata]
          exact ih
      | disconnect id => exact ih
      | tick now =>
          have hmd : (tickStep now s).1.matchMetadata =
              (updateMatchPhase now s).matchMetadata := rfl
          rw [hmd]
          exact updateMatchPhase_MdInv now s ih

theorem c6_roundEndsAt_null_iff_lobby_witness :
    ((tickStep 0 sW1).1.matchMetadata.phase = GamePhase.lobby ↔
      (tickStep 0 sW1).1.matchMetadata.roundEndsAt = none) :=
  c6_roundEndsAt_null_iff_lobby (tickStep 0 sW1).1
    (Reachable.step (Reachable.step Reachable.init
        (Step.connect initialState "p1" 0 0 (by simp [initialState])))
      (Step.tick sW1 0))

theorem map_id_filter_ne (ps : List Player) (i : String) :
    (ps.filter (fun p => p.id != i)).map Player.id =
      (ps.map Player.id).filter (fun x => x != i) := by
  induction ps with
  | nil => rfl
  | cons p rest ih =>
      by_cases h : p.id = i
      · simp [List.filter_cons, h, ih]
      · simp [List.filter_cons, h, ih]

theorem cursor_map_id (ps : List Player) (i : String) (pos : Vector3) (now : ℚ) :
    (ps.map (fun p => if p.id == i then
        { p with position := some pos, lastUpdate := now } else p)).map Player.id =
      ps.map Player.id := by
  rw [List.map_map]
  refine List.map_congr_left ?_
  intro p _
  by_cases h : p.id = i
  · simp [h]
  · simp [h]

theorem reachable_OwnInv {s : ServerState} (h : Reachable s) : OwnInv s := by
  induction h with
  | init => exact ⟨rfl, by simp [initialState]⟩
  | @step s s' hr hstep ih =>
      obtain ⟨ihc, ihf⟩ := ih
      cases hstep with
      | connect nid rnd now hfresh =>
          have hps : (connectPlayer s nid rnd now).1.players =
              s.players ++
                [{ id := nid, color := getNextPlayerColor s.players rnd,
                   position := none, lastUpdate := now }] := rfl
          have hcl : (connectPlayer s nid rnd now).1.clients = s.clients ++ [nid] := rfl
          have hff : (connectPlayer s nid rnd now).1.forceFields = s.forceFields := rfl
          constructor
          · rw [hps, hcl, List.map_append, ihc]
            rfl
          · intro f hf
            rw [hff] at hf
            rw [hps, List.map_append]
            exact List.mem_append_left _ (ihf f hf)
      | message id nid now m hc =>
          match m with
          | none => exact ⟨ihc, ihf⟩
          | some (.cursor pos) =>
              have hps : (handleClientMessage s id nid now (some (.cursor pos))).1.players =
                  s.players.map (fun p => if p.id == id then
                    { p with position := some pos, lastUpdate := now } else p) := rfl
              have hcl : (handleClientMessage s id nid now (some (.cursor pos))).1.clients =
                  s.clients := rfl
              have hff : (handleClientMessage s id nid now
                  (some (.cursor pos))).1.forceFields = s.forceFields := rfl
              constructor
              · rw [hps, hcl, cursor_map_id]
                exact ihc
              · intro f hf
                rw [hff] at hf
                rw [hps, cursor_map_id]
                exact ihf f hf
          | some (.add_force pos k c) =>
              have hps : (handleClientMessage s id nid now
                  (some (.add_force pos k c))).1.players = s.players := rfl
              have hcl : (handleClientMessage s id nid now
                  (some (.add_force pos k c))).1.clients = s.clients := rfl
              have hff : (handleClientMessage s id nid now
                  (some (.add_force pos k c))).1.forceFields =
                  s.forceFields ++
                    [{ id := nid, position := pos, type := k, ownerId := id,
                       createdAt := now, color := c }] := rfl
              constructor
              · rw [hps, hcl]
                exact ihc
              · intro f hf
                rw [hff] at hf
                rw [hps]
                rcases List.mem_append.mp hf with hmem | hmem
                · exact ihf f hmem
                · have hfe := List.mem_singleton.mp hmem
                  subst hfe
                  show id ∈ s.players.map Player.id
                  rw [← ihc]
                  exact hc
          | some (.hit_territory tid amt) =>
              have hht : (handleClientMessage s id nid now
                  (some (.hit_territory tid amt))).1 = hitTerritory s id tid amt := rfl
              obtain ⟨hps, hffs, hcs, _⟩ := hitTerritory_components s id tid amt
              constructor
              · rw [hht, hcs, hps]
                exact ihc
              · intro f hf
                rw [hht, hffs] at hf
                rw [hht, hps]
                exact ihf f hf
          | some .other => exact ⟨ihc, ihf⟩
      | disconnect id =>
          have hps : (disconnectPlayer s id).1.players =
              s.players.filter (fun p => p.id != id) := rfl
          have hcl : (disconnectPlayer s id).1.clients =
              s.clients.filter (fun c => c != id) := rfl
          have hff : (disconnectPlayer s id).1.forceFields =
              s.forceFields.filter (fun f => f.ownerId != id) := rfl
          constructor
          · rw [hps, hcl, map_id_filter_ne, ihc]
          · intro f hf
            rw [hff] at hf
            have hf' := List.mem_filter.mp hf
            rw [hps, map_id_filter_ne, List.mem_filter]
            exact ⟨ihf f hf'.1, hf'.2⟩
      | tick now =>
          have hps : (tickStep now s).1.players = (updateMatchPhase now s).players := rfl
          have hcl : (tickStep now s).1.clients = (updateMatchPhase now s).clients := rfl
          have hff : (tickStep now s).1.forceFields =
              (updateMatchPhase now s).forceFields.filter
                (fun f => decide (¬ now - f.createdAt > 10500)) := rfl
          constructor
          · rw [hps, hcl, updateMatchPhase_players, updateMatchPhase_clients]
            exact ihc
          · intro f hf
            rw [hff] at hf
            have hf' := (List.mem_filter.mp hf).1
            rw [hps, updateMatchPhase_players]
            rcases updateMatchPhase_forceFields now s with heq | heq
            · rw [heq] at hf'
              exact ihf f hf'
            · rw [heq] at hf'
              exact absurd hf' (List.not_mem_nil f)

/-- **C9**: in every reachable state, every force field's `ownerId` is the id
of a currently-connected player: creation uses only the sender's live
connection id, and disconnect deletes the player's force fields together with
the player, so no event leaves an orphaned force field. -/
theorem c9_force_field_owner_connected (s : ServerState) (h : Reachable s) :
    ∀ f ∈ s.forceFields, ∃ p ∈ s.players, p.id = f.ownerId := by
  intro f hf
  have hinv := (reachable_OwnInv h).2 f hf
  rcases List.mem_map.mp hinv with ⟨p, hp, hpid⟩
  exact ⟨p, hp, hpid⟩

theorem sW2_reachable : Reachable sW2 :=
  Reachable.step (Reachable.step Reachable.init
      (Step.connect initialState "p1" 0 0 (by simp [initialState])))
    (Step.message sW1 "p1" "f1" 5
      (some (.add_force { x := 0, y := 0, z := 0 } .attractor "#33CCFF"))
      (by show "p1" ∈ ["p1"]; simp))

theorem c9_force_field_owner_connected_witness :
    ∃ p ∈ sW2.players, p.id = fW.ownerId :=
  c9_force_field_owner_connected sW2 sW2_reachable fW
    (by show fW ∈ [fW]; simp)

/-! ### The selection loop picks the first lexicographic maximum -/

theorem lexLt_irrefl (a : ℚ × ℚ) : ¬ lexLt a a := by
  rintro (h | ⟨h1, h2⟩)
  · exact lt_irrefl _ h
  · exact lt_irrefl _ h2

theorem lexLt_trans {a b c : ℚ × ℚ} (h1 : lexLt a b) (h2 : lexLt b c) : lexLt a c := by
  rcases h1 with h1 | ⟨e1, l1⟩
  · rcases h2 with h2 | ⟨e2, l2⟩
    · exact Or.inl (lt_trans h1 h2)
    · exact Or.inl (lt_of_lt_of_le h1 (le_of_eq e2))
  · rcases h2 with h2 | ⟨e2, l2⟩
    · exact Or.inl (lt_of_le_of_lt (le_of_eq e1) h2)
    · exact Or.inr ⟨e1.trans e2, lt_trans l1 l2⟩

theorem lexLt_trichotomy (a b : ℚ × ℚ) : lexLt a b ∨ a = b ∨ lexLt b a := by
  rcases lt_trichotomy a.1 b.1 with h | h | h
  · exact Or.inl (Or.inl h)
  · rcases lt_trichotomy a.2 b.2 with h2 | h2 | h2
    · exact Or.inl (Or.inr ⟨h, h2⟩)
    · exact Or.inr (Or.inl (Prod.ext h h2))
    · exact Or.inr (Or.inr (Or.inr ⟨h.symm, h2⟩))
  · exact Or.inr (Or.inr (Or.inl h))

theorem lexLt_of_not_of_lexLt {a b c : ℚ × ℚ} (h1 : ¬ lexLt a b) (h2 : lexLt a c) :
    lexLt b c := by
  rcases lexLt_trichotomy b c with h | h | h
  · exact h
  · subst h
    exact absurd h2 h1
  · exact absurd (lexLt_trans h2 h) h1

theorem lexLt_of_lexLt_of_not {a b c : ℚ × ℚ} (h1 : lexLt a b) (h2 : ¬ lexLt c b) :
    lexLt a c := by
  rcases lexLt_trichotomy a c with h | h | h
  · exact h
  · subst h
    exact absurd h1 h2
  · exact absurd (lexLt_trans h h1) h2

theorem find?_congrOn {α : Type} (p q : α → Bool) :
    ∀ (l : List α), (∀ x ∈ l, p x = q x) → l.find? p = l.find? q := by
  intro l
  induction l with
  | nil => intro _; rfl
  | cons x xs ih =>
      intro h
      have hx := h x (List.mem_cons_self x xs)
      cases hq : q x with
      | true =>
          rw [List.find?_cons_of_pos _ (by rw [hx, hq]),
            List.find?_cons_of_pos _ (by rw [hq])]
      | false =>
          rw [List.find?_cons_of_neg _ (by rw [hx, hq]; simp),
            List.find?_cons_of_neg _ (by rw [hq]; simp)]
          exact ih (fun y hy => h y (List.mem_cons_of_mem x hy))

theorem selCond_iff (v w : ℚ × ℚ) :
    (v.1 > w.1 ∨ (v.1 = w.1 ∧ v.2 > w.2)) ↔ lexLt w v := by
  unfold lexLt
  constructor
  · rintro (h | ⟨h1, h2⟩)
    · exact Or.inl h
    · exact Or.inr ⟨h1.symm, h2⟩
  · rintro (h | ⟨h1, h2⟩)
    · exact Or.inl h
    · exact Or.inr ⟨h1.symm, h2⟩

theorem selLoop_start (f : String → ℚ × ℚ) (k : String) (krest : List String)
    (h : (-1 : ℚ) < (f k).1) :
    selLoop f (none, -1, -1) (k :: krest) = selLoop f (some k, f k) krest := by
  show (if (f k).1 > (-1 : ℚ) ∨ ((f k).1 = (-1 : ℚ) ∧ (f k).2 > (-1 : ℚ)) then
      selLoop f (some k, f k) krest
    else selLoop f (none, -1, -1) krest) = _
  rw [if_pos (Or.inl h)]

theorem selLoop_cons (f : String → ℚ × ℚ) (b c : String) (rest : List String) :
    selLoop f (some b, f b) (c :: rest) =
      if lexLt (f b) (f c) then selLoop f (some c, f c) rest
      else selLoop f (some b, f b) rest := by
  show (if (f c).1 > (f b).1 ∨ ((f c).1 = (f b).1 ∧ (f c).2 > (f b).2) then
      selLoop f (some c, f c) rest else selLoop f (some b, f b) rest) = _
  by_cases h : lexLt (f b) (f c)
  · rw [if_pos ((selCond_iff _ _).mpr h), if_pos h]
  · rw [if_neg (fun hc => h ((selCond_iff _ _).mp hc)), if_neg h]

/-- Once a champion `b` is installed, the selection loop returns the first
entry of `b :: l` that no entry of `b :: l` strictly (lexicographically)
beats. -/
theorem selLoop_champion (f : String → ℚ × ℚ) :
    ∀ (l : List String) (b : String),
      ∃ w, (b :: l).find?
          (fun c => (b :: l).all (fun d => decide (¬ lexLt (f c) (f d)))) = some w ∧
        selLoop f (some b, f b) l = (some w, f w) := by
  intro l
  induction l with
  | nil =>
      intro b
      refine ⟨b, ?_, rfl⟩
      rw [List.find?_cons_of_pos _ (by simp [lexLt_irrefl])]
  | cons c rest ih =>
      intro b
      rw [selLoop_cons]
      by_cases hbc : lexLt (f b) (f c)
      · rw [if_pos hbc]
        obtain ⟨w, hfind, hloop⟩ := ih c
        refine ⟨w, ?_, hloop⟩
        have hPb : ¬ ((b :: c :: rest).all
            (fun d => decide (¬ lexLt (f b) (f d))) = true) := by
          simp only [List.all_eq_true, decide_eq_true_eq]
          intro hall
          exact (hall c (by simp)) hbc
        have hcongr : ∀ x ∈ c :: rest,
            (fun e => (b :: c :: rest).all (fun d => decide (¬ lexLt (f e) (f d)))) x =
            (fun e => (c :: rest).all (fun d => decide (¬ lexLt (f e) (f d)))) x := by
          intro e _
          rw [Bool.eq_iff_iff]
          simp only [List.all_eq_true, decide_eq_true_eq]
          constructor
          · intro hbig d hd
            exact hbig d (List.mem_cons_of_mem b hd)
          · intro hsmall d hd
            rcases List.mem_cons.mp hd with rfl | hd'
            · intro hlt
              exact (hsmall c (List.mem_cons_self c rest)) (lexLt_trans hlt hbc)
            · exact hsmall d hd'
        have hskip : List.find?
            (fun e => (b :: c :: rest).all (fun d => decide (¬ lexLt (f e) (f d))))
            (b :: c :: rest) =
            List.find?
              (fun e => (b :: c :: rest).all (fun d => decide (¬ lexLt (f e) (f d))))
              (c :: rest) := List.find?_cons_of_neg _ hPb
        rw [hskip]
        exact (find?_congrOn _ _ (c :: rest) hcongr).trans hfind
      · rw [if_neg hbc]
        obtain ⟨w, hfind, hloop⟩ := ih b
        refine ⟨w, ?_, hloop⟩
        by_cases hb : ((b :: rest).all (fun d => decide (¬ lexLt (f b) (f d)))) = true
        · have hfb : List.find?
              (fun e => (b :: rest).all (fun d => decide (¬ lexLt (f e) (f d))))
              (b :: rest) = some b := List.find?_cons_of_pos _ hb
          have hwb : w = b := by
            rw [hfb] at hfind
            exact (Option.some_inj.mp hfind).symm
          rw [hwb]
          have hPb : ((b :: c :: rest).all
              (fun d => decide (¬ lexLt (f b) (f d)))) = true := by
            simp only [List.all_eq_true, decide_eq_true_eq] at hb ⊢
            intro d hd
            rcases List.mem_cons.mp hd with rfl | hd'
            · exact hb d (List.mem_cons_self d rest)
            · rcases List.mem_cons.mp hd' with rfl | hd''
              · exact hbc
              · exact hb d (List.mem_cons_of_mem b hd'')
          exact List.find?_cons_of_pos _ hPb
        · have hbeat : ∃ d ∈ rest, lexLt (f b) (f d) := by
            simp only [List.all_eq_true, decide_eq_true_eq] at hb
            push_neg at hb
            obtain ⟨d, hd, hlt⟩ := hb
            rcases List.mem_cons.mp hd with rfl | hd'
            · exact absurd hlt (lexLt_irrefl (f d))
            · exact ⟨d, hd', hlt⟩
          obtain ⟨d0, hd0, hlt0⟩ := hbeat
          have hskipmed : List.find?
              (fun e => (b :: rest).all (fun d => decide (¬ lexLt (f e) (f d))))
              (b :: rest) =
              List.find?
                (fun e => (b :: rest).all (fun d => decide (¬ lexLt (f e) (f d))))
                rest := List.find?_cons_of_neg _ hb
          rw [hskipmed] at hfind
          have hPb : ¬ ((b :: c :: rest).all
              (fun d => decide (¬ lexLt (f b) (f d))) = true) := by
            simp only [List.all_eq_true, decide_eq_true_eq]
            intro hall
            exact (hall d0 (by simp [hd0])) hlt0
          have hcd : lexLt (f c) (f d0) := lexLt_of_not_of_lexLt hbc hlt0
          have hPc : ¬ ((b :: c :: rest).all
              (fun d => decide (¬ lexLt (f c) (f d))) = true) := by
            simp only [List.all_eq_true, decide_eq_true_eq]
            intro hall
            exact (hall d0 (by simp [hd0])) hcd
          have hskip1 : List.find?
              (fun e => (b :: c :: rest).all (fun d => decide (¬ lexLt (f e) (f d))))
              (b :: c :: rest) =
              List.find?
                (fun e => (b :: c :: rest).all (fun d => decide (¬ lexLt (f e) (f d))))
                (c :: rest) := List.find?_cons_of_neg _ hPb
          have hskip2 : List.find?
              (fun e => (b :: c :: rest).all (fun d => decide (¬ lexLt (f e) (f d))))
              (c :: rest) =
              List.find?
                (fun e => (b :: c :: rest).all (fun d => decide (¬ lexLt (f e) (f d))))
                rest := List.find?_cons_of_neg _ hPc
          rw [hskip1, hskip2]
          have hcongr : ∀ x ∈ rest,
              (fun e => (b :: c :: rest).all (fun d => decide (¬ lexLt (f e) (f d)))) x =
              (fun e => (b :: rest).all (fun d => decide (¬ lexLt (f e) (f d)))) x := by
            intro e _
            rw [Bool.eq_iff_iff]
            simp only [List.all_eq_true, decide_eq_true_eq]
            constructor
            · intro hbig d hd
              rcases List.mem_cons.mp hd with rfl | hd'
              · exact hbig d (List.mem_cons_self d _)
              · exact hbig d (List.mem_cons_of_mem b (List.mem_cons_of_mem c hd'))
            · intro hmed d hd
              rcases List.mem_cons.mp hd with rfl | hd'
              · exact hmed d (List.mem_cons_self d _)
              · rcases List.mem_cons.mp hd' with rfl | hd''
                · intro hlt
                  exact (hmed b (List.mem_cons_self b rest))
                    (lexLt_of_lexLt_of_not hlt hbc)
                · exact hmed d (List.mem_cons_of_mem b hd'')
          exact (find?_congrOn _ _ rest hcongr).trans hfind

/-! ### The aggregation loop computes counts, sums and first-encounter order -/

theorem dedupFirstAux_append (y : String) :
    ∀ (l seen : List String),
      dedupFirstAux seen (l ++ [y]) =
        dedupFirstAux seen l ++ (if y ∈ seen ∨ y ∈ l then [] else [y]) := by
  intro l
  induction l with
  | nil =>
      intro seen
      by_cases h : y ∈ seen
      · simp [dedupFirstAux, h]
      · simp [dedupFirstAux, h]
  | cons x xs ih =>
      intro seen
      by_cases hx : x ∈ seen
      · have hiff : (y ∈ seen ∨ y ∈ x :: xs) ↔ (y ∈ seen ∨ y ∈ xs) := by
          constructor
          · rintro (h | h)
            · exact Or.inl h
            · rcases List.mem_cons.mp h with rfl | h'
              · exact Or.inl hx
              · exact Or.inr h'
          · rintro (h | h)
            · exact Or.inl h
            · exact Or.inr (List.mem_cons_of_mem x h)
        rw [List.cons_append]
        show dedupFirstAux seen (x :: (xs ++ [y])) = _
        rw [show dedupFirstAux seen (x :: (xs ++ [y])) =
            dedupFirstAux seen (xs ++ [y]) by simp [dedupFirstAux, hx]]
        rw [ih seen]
        rw [show dedupFirstAux seen (x :: xs) = dedupFirstAux seen xs by
          simp [dedupFirstAux, hx]]
        rw [if_congr hiff rfl rfl]
      · have hiff : (y ∈ x :: seen ∨ y ∈ xs) ↔ (y ∈ seen ∨ y ∈ x :: xs) := by
          constructor
          · rintro (h | h)
            · rcases List.mem_cons.mp h with rfl | h'
              · exact Or.inr (List.mem_cons_self y xs)
              · exact Or.inl h'
            · exact Or.inr (List.mem_cons_of_mem x h)
          · rintro (h | h)
            · exact Or.inl (List.mem_cons_of_mem x h)
            · rcases List.mem_cons.mp h with rfl | h'
              · exact Or.inl (List.mem_cons_self y seen)
              · exact Or.inr h'
        rw [List.cons_append]
        rw [show dedupFirstAux seen (x :: (xs ++ [y])) =
            x :: dedupFirstAux (x :: seen) (xs ++ [y]) by simp [dedupFirstAux, hx]]
        rw [ih (x :: seen)]
        rw [show dedupFirstAux seen (x :: xs) =
            x :: dedupFirstAux (x :: seen) xs by simp [dedupFirstAux, hx]]
        rw [if_congr hiff rfl rfl, List.cons_append]

theorem mem_dedupFirstAux (c : String) :
    ∀ (l seen : List String), c ∈ dedupFirstAux seen l ↔ c ∈ l ∧ c ∉ seen := by
  intro l
  induction l with
  | nil => intro seen; simp [dedupFirstAux]
  | cons x xs ih =>
      intro seen
      by_cases hx : x ∈ seen
      · rw [show dedupFirstAux seen (x :: xs) = dedupFirstAux seen xs by
          simp [dedupFirstAux, hx]]
        rw [ih seen]
        constructor
        · rintro ⟨h1, h2⟩
          exact ⟨List.mem_cons_of_mem x h1, h2⟩
        · rintro ⟨h1, h2⟩
          rcases List.mem_cons.mp h1 with rfl | h1'
          · exact absurd hx h2
          · exact ⟨h1', h2⟩
      · rw [show dedupFirstAux seen (x :: xs) =
            x :: dedupFirstAux (x :: seen) xs by simp [dedupFirstAux, hx]]
        rw [List.mem_cons, ih (x :: seen)]
        constructor
        · rintro (rfl | ⟨h1, h2⟩)
          · exact ⟨List.mem_cons_self c xs, hx⟩
          · refine ⟨List.mem_cons_of_mem x h1, ?_⟩
            intro hmem
            exact h2 (List.mem_cons_of_mem x hmem)
        · rintro ⟨h1, h2⟩
          rcases List.mem_cons.mp h1 with rfl | h1'
          · exact Or.inl rfl
          · by_cases hcx : c = x
            · exact Or.inl hcx
            · refine Or.inr ⟨h1', ?_⟩
              intro hmem
              rcases List.mem_cons.mp hmem with h | h
              · exact hcx h
              · exact h2 h

theorem mem_dedupFirst (c : String) (l : List String) :
    c ∈ dedupFirst l ↔ c ∈ l := by
  unfold dedupFirst
  rw [mem_dedupFirstAux]
  simp

theorem dedupFirst_append (l : List String) (y : String) :
    dedupFirst (l ++ [y]) =
      if y ∈ l then dedupFirst l else dedupFirst l ++ [y] := by
  unfold dedupFirst
  rw [dedupFirstAux_append y l []]
  by_cases h : y ∈ l
  · simp [h]
  · simp [h]

theorem recBump_keys (m : List (String × ℚ)) (k : String) (v : ℚ) :
    (recBump m k v).map Prod.fst =
      if k ∈ m.map Prod.fst then m.map Prod.fst else m.map Prod.fst ++ [k] := by
  induction m with
  | nil => simp [recBump]
  | cons e rest ih =>
      by_cases h : e.1 = k
      · simp [recBump, h]
      · by_cases hk : k ∈ rest.map Prod.fst
        · simp [recBump, h, hk, ih, Ne.symm h]
        · simp [recBump, h, hk, ih, Ne.symm h]

theorem lookupOr0_cons (e : String × ℚ) (rest : List (String × ℚ)) (c : String) :
    lookupOr0 (e :: rest) c = if e.1 = c then e.2 else lookupOr0 rest c := by
  by_cases h : e.1 = c
  · simp [lookupOr0, h]
  · simp [lookupOr0, h]

theorem recBump_lookup (m : List (String × ℚ)) (k : String) (v : ℚ) (c : String) :
    lookupOr0 (recBump m k v) c =
      if c = k then lookupOr0 m c + v else lookupOr0 m c := by
  induction m with
  | nil =>
      by_cases h : c = k
      · simp [recBump, lookupOr0, h]
      · simp [recBump, lookupOr0, h, Ne.symm h]
  | cons e rest ih =>
      by_cases hek : e.1 = k
      · have hr : recBump (e :: rest) k v = (e.1, e.2 + v) :: rest := by
          simp [recBump, hek]
        rw [hr, lookupOr0_cons, lookupOr0_cons]
        by_cases hc : e.1 = c
        · have hck : c = k := hc.symm.trans hek
          simp [hc, hck]
        · have hck : ¬ c = k := fun hh => hc (hek.trans hh.symm)
          simp [hc, hck]
      · have hr : recBump (e :: rest) k v = e :: recBump rest k v := by
          simp [recBump, hek]
        rw [hr, lookupOr0_cons, lookupOr0_cons, ih]
        by_cases hc : e.1 = c
        · have hck : ¬ c = k := fun hh => hek (hc.trans hh)
          simp [hc, hck]
        · by_cases hck : c = k
          · simp [hc, hck, hek]
          · simp [hc, hck]

theorem tally_append (xs : List Territory) (x : Territory) :
    tally (xs ++ [x]) = tallyStep (tally xs) x := by
  simp [tally, List.foldl_append]

theorem specColorCount_append (xs : List Territory) (x : Territory) (c : String) :
    specColorCount (xs ++ [x]) c =
      specColorCount xs c + (if x.controllingColor == some c then 1 else 0) := by
  unfold specColorCount
  rw [List.filter_append]
  by_cases h : (x.controllingColor == some c) = true
  · rw [if_pos h]
    simp only [List.filter_cons, List.filter_nil, h, if_true]
    rw [List.length_append]
    push_cast [List.length_singleton]
    ring
  · rw [if_neg h]
    simp only [List.filter_cons, List.filter_nil, h, if_false]
    simp

theorem specColorPoints_append (xs : List Territory) (x : Territory) (c : String) :
    specColorPoints (xs ++ [x]) c =
      specColorPoints xs c + (if x.controllingColor == some c then x.points else 0) := by
  unfold specColorPoints
  rw [List.filter_append]
  by_cases h : (x.controllingColor == some c) = true
  · rw [if_pos h]
    simp only [List.filter_cons, List.filter_nil, h, if_true]
    rw [List.map_append, List.sum_append]
    simp
  · rw [if_neg h]
    simp only [List.filter_cons, List.filter_nil, h, if_false]
    simp

/-- The aggregation loop builds records whose key list is the colors in
first-encounter order and whose entries are the per-color territory count and
points sum, provided no territory carries the falsy empty-string color. -/
theorem tally_spec : ∀ (ts : List Territory),
    (∀ t ∈ ts, t.controllingColor ≠ some "") →
    (tally ts).1.map Prod.fst = specColorOrder ts ∧
    (∀ c, lookupOr0 (tally ts).1 c = specColorCount ts c) ∧
    (∀ c, lookupOr0 (tally ts).2 c = specColorPoints ts c) := by
  intro ts
  induction ts using List.reverseRecOn with
  | nil =>
      intro _
      refine ⟨rfl, ?_, ?_⟩
      · intro c
        simp [tally, lookupOr0, specColorCount]
      · intro c
        simp [tally, lookupOr0, specColorPoints]
  | append_singleton xs x ih =>
      intro hyp
      have hyp' : ∀ t ∈ xs, t.controllingColor ≠ some "" :=
        fun t ht => hyp t (List.mem_append_left _ ht)
      have hx : x.controllingColor ≠ some "" := hyp x (by simp)
      obtain ⟨ihk, ihc, ihp⟩ := ih hyp'
      rcases hcc : x.controllingColor with _ | color
      · have ht : tally (xs ++ [x]) = tally xs := by
          rw [tally_append]
          simp [tallyStep, hcc]
        have hso : specColorOrder (xs ++ [x]) = specColorOrder xs := by
          simp [specColorOrder, List.filterMap_append, hcc]
        refine ⟨?_, ?_, ?_⟩
        · rw [ht, hso]
          exact ihk
        · intro c
          rw [ht, specColorCount_append]
          simp [hcc, ihc c]
        · intro c
          rw [ht, specColorPoints_append]
          simp [hcc, ihp c]
      · have hcne : ¬ ((color == "") = true) := by
          rw [hcc] at hx
          simp only [beq_iff_eq]
          intro hh
          exact hx (by rw [hh])
        have ht : tally (xs ++ [x]) =
            (recBump (tally xs).1 color 1, recBump (tally xs).2 color x.points) := by
          rw [tally_append]
          simp only [tallyStep, hcc]
          rw [if_neg hcne]
        have hso : specColorOrder (xs ++ [x]) =
            if color ∈ xs.filterMap Territory.controllingColor then specColorOrder xs
            else specColorOrder xs ++ [color] := by
          unfold specColorOrder
          rw [List.filterMap_append]
          have : List.filterMap Territory.controllingColor [x] = [color] := by
            simp [hcc]
          rw [this]
          exact dedupFirst_append _ color
        refine ⟨?_, ?_, ?_⟩
        · have hfst : (tally (xs ++ [x])).1 = recBump (tally xs).1 color 1 := by
            rw [ht]
          rw [hfst, recBump_keys, ihk, hso]
          have hmem : (color ∈ specColorOrder xs) ↔
              color ∈ xs.filterMap Territory.controllingColor :=
            mem_dedupFirst color _
          rw [if_congr hmem rfl rfl]
        · intro c
          have hfst : (tally (xs ++ [x])).1 = recBump (tally xs).1 color 1 := by
            rw [ht]
          rw [hfst, recBump_lookup, ihc c, specColorCount_append]
          by_cases hcol : c = color
          · simp [hcol, hcc]
          · have : ¬ ((x.controllingColor == some c) = true) := by
              rw [hcc]
              simp only [beq_iff_eq, Option.some_inj]
              exact fun hh => hcol hh.symm
            rw [if_neg hcol, if_neg this]
            simp
        · intro c
          have hsnd : (tally (xs ++ [x])).2 = recBump (tally xs).2 color x.points := by
            rw [ht]
          rw [hsnd, recBump_lookup, ihp c, specColorPoints_append]
          by_cases hcol : c = color
          · simp [hcol, hcc]
          · have : ¬ ((x.controllingColor == some c) = true) := by
              rw [hcc]
              simp only [beq_iff_eq, Option.some_inj]
              exact fun hh => hcol hh.symm
            rw [if_neg hcol, if_neg this]
            simp

/-- The winner-selection loop of `endMatch`, run over the aggregation's keys,
returns exactly the spec's winning color. -/
theorem selLoop_eq_specWinningColor (ts : List Territory)
    (hyp : ∀ t ∈ ts, t.controllingColor ≠ some "") :
    (selLoop (fun c => (lookupOr0 (tally ts).1 c, lookupOr0 (tally ts).2 c))
      (none, -1, -1) ((tally ts).1.map Prod.fst)).1 = specWinningColor ts := by
  obtain ⟨hk, hc, hp⟩ := tally_spec ts hyp
  have hgg : (fun c => (lookupOr0 (tally ts).1 c, lookupOr0 (tally ts).2 c)) =
      (fun c => (specColorCount ts c, specColorPoints ts c)) := by
    funext c
    rw [hc c, hp c]
  rw [hgg, hk]
  rcases hlist : specColorOrder ts with _ | ⟨k, krest⟩
  · simp [selLoop, specWinningColor, hlist]
  · have hkmem : k ∈ specColorOrder ts := by
      rw [hlist]
      exact List.mem_cons_self _ _
    have hkfm : k ∈ ts.filterMap Territory.controllingColor :=
      (mem_dedupFirst k _).mp hkmem
    have hcount : 1 ≤ specColorCount ts k := by
      obtain ⟨t, ht, htc⟩ := List.mem_filterMap.mp hkfm
      have hmf : t ∈ ts.filter (fun u => u.controllingColor == some k) := by
        rw [List.mem_filter]
        exact ⟨ht, by simp [htc]⟩
      have hlen : 0 < (ts.filter (fun u => u.controllingColor == some k)).length :=
        List.length_pos_of_mem hmf
      unfold specColorCount
      exact_mod_cast hlen
    rw [selLoop_start (fun c => (specColorCount ts c, specColorPoints ts c)) k krest
      (lt_of_lt_of_le (by norm_num) hcount)]
    obtain ⟨w, hfind, hloop⟩ :=
      selLoop_champion (fun c => (specColorCount ts c, specColorPoints ts c)) krest k
    rw [hloop]
    show some w = _
    unfold specWinningColor
    rw [hlist]
    have hpred : ∀ e ∈ k :: krest,
        (fun c => (k :: krest).all (fun d => decide (¬ lexLt
          ((fun c => (specColorCount ts c, specColorPoints ts c)) c)
          ((fun c => (specColorCount ts c, specColorPoints ts c)) d)))) e =
        (fun c => (k :: krest).all (fun d => decide (¬ specBeats ts d c))) e := by
      intro e _
      rw [Bool.eq_iff_iff]
      simp only [List.all_eq_true, decide_eq_true_eq]
      constructor
      · intro hh d hd hbeats
        refine (hh d hd) ?_
        rcases hbeats with h1 | ⟨h1, h2⟩
        · exact Or.inl h1
        · exact Or.inr ⟨h1.symm, h2⟩
      · intro hh d hd hlt
        refine (hh d hd) ?_
        rcases hlt with h1 | ⟨h1, h2⟩
        · exact Or.inl h1
        · exact Or.inr ⟨h1.symm, h2⟩
    exact hfind.symm.trans (find?_congrOn _ _ (k :: krest) hpred)

theorem endMatch_winner_eq_spec (now : ℚ) (s : ServerState)
    (hyp : ∀ t ∈ s.territories, t.controllingColor ≠ some "") :
    (endMatch now s).matchMetadata.winningColor = specWinningColor s.territories := by
  have h0 : (endMatch now s).matchMetadata.winningColor =
      (selLoop (fun c => (lookupOr0 (tally s.territories).1 c,
          lookupOr0 (tally s.territories).2 c))
        (none, -1, -1) ((tally s.territories).1.map Prod.fst)).1 := rfl
  rw [h0, selLoop_eq_specWinningColor s.territories hyp]

theorem endMatch_eq_core (now : ℚ) (s : ServerState)
    (hyp : ∀ t ∈ s.territories, t.controllingColor ≠ some "") :
    endMatch now s = endMatchCore s now (specWinningColor s.territories) := by
  show endMatchCore s now
      (selLoop (fun c => (lookupOr0 (tally s.territories).1 c,
          lookupOr0 (tally s.territories).2 c))
        (none, -1, -1) ((tally s.territories).1.map Prod.fst)).1 = _
  rw [selLoop_eq_specWinningColor s.territories hyp]

theorem lookupNat_cons (e : String × Nat) (rest : List (String × Nat)) (c : String) :
    lookupNat (e :: rest) c = if e.1 = c then e.2 else lookupNat rest c := by
  by_cases h : e.1 = c
  · simp [lookupNat, h]
  · simp [lookupNat, h]

theorem lookupNat_bumpNat (m : List (String × Nat)) (k : String) :
    lookupNat (bumpNat m k) k = lookupNat m k + 1 := by
  induction m with
  | nil => simp [bumpNat, lookupNat]
  | cons e rest ih =>
      by_cases h : e.1 = k
      · have hr : bumpNat (e :: rest) k = (e.1, e.2 + 1) :: rest := by
          simp [bumpNat, h]
        rw [hr, lookupNat_cons, lookupNat_cons, if_pos h, if_pos h]
      · have hr : bumpNat (e :: rest) k = e :: bumpNat rest k := by
          simp [bumpNat, h]
        rw [hr, lookupNat_cons, lookupNat_cons, if_neg h, if_neg h, ih]

theorem endMatchCore_some (s : ServerState) (now : ℚ) (c : String)
    (hne : ¬ ((c == "") = true)) (hid : ∀ p ∈ s.players, p.id ≠ "") :
    (endMatchCore s now (some c)).matchMetadata.scoreboard.colors =
      bumpNat s.matchMetadata.scoreboard.colors c ∧
    (endMatchCore s now (some c)).matchMetadata.winningPlayerId =
      (s.players.find? (fun p => p.color == c)).map Player.id ∧
    (endMatchCore s now (some c)).matchMetadata.scoreboard.players =
      (match s.players.find? (fun p => p.color == c) with
       | some p => bumpNat s.matchMetadata.scoreboard.players p.id
       | none => s.matchMetadata.scoreboard.players) := by
  have hfalse : (c == "") = false := by
    cases hcb : (c == "") with
    | true => exact absurd hcb hne
    | false => rfl
  cases hfp : s.players.find? (fun p => p.color == c) with
  | none =>
      refine ⟨?_, ?_, ?_⟩ <;>
        simp [endMatchCore, getWinningPlayerByColor, hfalse, hfp]
  | some p =>
      have hpmem : p ∈ s.players := List.mem_of_find?_eq_some hfp
      have hpid : (p.id == "") = false := by
        cases hcb : (p.id == "") with
        | true => exact absurd (by simpa using hcb) (hid p hpmem)
        | false => rfl
      refine ⟨?_, ?_, ?_⟩ <;>
        simp [endMatchCore, getWinningPlayerByColor, hfalse, hfp, hpid]

/-- **C3**: `endMatch` selects as winning color, among colors controlling at
least one territory, the one with the highest territory count, ties broken by
higher accumulated points, remaining ties by the first color encountered in
the fixed territory iteration order (this is exactly `specWinningColor`,
transcribed from the spec's wording).  On a winner `c`,
`scoreboard.colors[c]` is incremented, `winningPlayerId` is the first
currently-connected player holding `c` (if any), whose `scoreboard.players`
entry is then incremented; with no such player the player scoreboard is
unchanged.  In particular, with two colors each controlling exactly one
territory with equal points (`sTie`), the winner is the color of the
territory registered first.  (The hypotheses exclude the empty string as a
color or player id — JS falsiness corners unreachable with the fixed palette
and uuid ids.) -/
theorem c3_end_match_winner_selection :
    (∀ (s : ServerState) (now : ℚ),
      (∀ t ∈ s.territories, t.controllingColor ≠ some "") →
      (∀ p ∈ s.players, p.id ≠ "") →
      (endMatch now s).matchMetadata.winningColor = specWinningColor s.territories ∧
      (∀ c, specWinningColor s.territories = some c →
        lookupNat (endMatch now s).matchMetadata.scoreboard.colors c =
          lookupNat s.matchMetadata.scoreboard.colors c + 1 ∧
        (endMatch now s).matchMetadata.winningPlayerId =
          (s.players.find? (fun p => p.color == c)).map Player.id ∧
        (∀ p, s.players.find? (fun q => q.color == c) = some p →
          lookupNat (endMatch now s).matchMetadata.scoreboard.players p.id =
            lookupNat s.matchMetadata.scoreboard.players p.id + 1) ∧
        (s.players.find? (fun q => q.color == c) = none →
          (endMatch now s).matchMetadata.scoreboard.players =
            s.matchMetadata.scoreboard.players))) ∧
    (endMatch 0 sTie).matchMetadata.winningColor = some "A" := by
  constructor
  · intro s now hyp hid
    refine ⟨endMatch_winner_eq_spec now s hyp, ?_⟩
    intro c hwc
    have hcmem : c ∈ specColorOrder s.territories := by
      have := List.mem_of_find?_eq_some hwc
      exact this
    have hcfm : c ∈ s.territories.filterMap Territory.controllingColor :=
      (mem_dedupFirst c _).mp hcmem
    have hcne : ¬ ((c == "") = true) := by
      obtain ⟨t, ht, htc⟩ := List.mem_filterMap.mp hcfm
      simp only [beq_iff_eq]
      intro hce
      exact (hyp t ht) (by rw [htc, hce])
    have hem : endMatch now s = endMatchCore s now (some c) := by
      rw [endMatch_eq_core now s hyp, hwc]
    obtain ⟨hcolors, hwpid, hplayers⟩ := endMatchCore_some s now c hcne hid
    refine ⟨?_, ?_, ?_, ?_⟩
    · rw [hem, hcolors, lookupNat_bumpNat]
    · rw [hem, hwpid]
    · intro p hfp
      rw [hem, hplayers, hfp, lookupNat_bumpNat]
    · intro hfp
      rw [hem, hplayers, hfp]
  · norm_num +decide [endMatch, endMatchCore, tally, tallyStep, recBump, lookupOr0,
      selLoop, sTie, initialMatchMetadata, getWinningPlayerByColor, bumpNat]

theorem c3_end_match_winner_selection_witness :
    (endMatch 0 sTie).matchMetadata.winningColor = specWinningColor sTie.territories ∧
    lookupNat (endMatch 0 sTie).matchMetadata.scoreboard.colors "A" =
      lookupNat sTie.matchMetadata.scoreboard.colors "A" + 1 := by
  have h := c3_end_match_winner_selection
  have h1 := h.1 sTie 0 (by decide) (by decide)
  have hspec : specWinningColor sTie.territories = some "A" := by
    rw [← h1.1]
    exact h.2
  exact ⟨h1.1, (h1.2 "A" hspec).1⟩

end CosmicPulse
